import Mathlib

/-!
Shallow embedding of the two icon-generating scripts of this repository:

* `src/create-icons.py` builds a minimal PNG (signature, IHDR, IDAT, IEND
  chunks with CRC32 checksums) for each size in `[16, 32, 48, 128]` and
  writes it to `assets/icons/icon<SIZE>.png`, printing one status line per
  file and one final summary line.
* `src/create_icons.py` base64-decodes one hardcoded 1x1 blue-pixel PNG and
  writes the same bytes to every `assets/icons/icon<SIZE>.png`, printing one
  status line per file and two final informational lines.

Bytes are modelled as `Nat` (each value below 256 where it matters), byte
strings as `List Nat`.  Python's `struct.pack` raises `struct.error` on a
value that does not fit the requested field, so the 4-byte big-endian
packer returns an `Option`.  `zlib.crc32` is implemented bit by bit
(reflected polynomial 0xEDB88320, initial value and final xor 0xFFFFFFFF).
`zlib.compress` produces implementation-defined DEFLATE output, so it is a
function parameter `compress : List Nat → List Nat`; no property below
depends on the actual compressed bytes, only on their placement, length
field and checksum.  `base64.b64decode` is implemented for the standard
alphabet.
-/

namespace GtmIcons

/-- The 4 big-endian bytes of a value below 2^32, as written by
`struct.pack` with format `>I`. -/
def be32 (n : Nat) : List Nat :=
  [n / 16777216 % 256, n / 65536 % 256, n / 256 % 256, n % 256]

/-- Python's `struct.pack('>I', n)`: the 4 big-endian bytes when
`n < 2^32`, a `struct.error` (modelled as `none`) otherwise. -/
def pack32 (n : Nat) : Option (List Nat) :=
  if n < 2 ^ 32 then some (be32 n) else none

/-- Big-endian interpretation of a byte list (used to state that a length
or dimension field decodes back to the packed value). -/
def beDecode (l : List Nat) : Nat :=
  l.foldl (fun a b => a * 256 + b) 0

/-- One bit step of the reflected CRC32: shift right, conditionally xor
with the reversed polynomial 0xEDB88320. -/
def crcStep (c : Nat) : Nat :=
  if c % 2 = 1 then 0xEDB88320 ^^^ (c / 2) else c / 2

/-- Fold one input byte into the CRC32 accumulator: xor it in, then do
eight bit steps. -/
def crcByte (c b : Nat) : Nat :=
  crcStep^[8] (c ^^^ b % 256)

/-- `zlib.crc32` over a byte list: accumulator starts at 0xFFFFFFFF, one
`crcByte` per input byte, final xor with 0xFFFFFFFF. -/
def crc32 (data : List Nat) : Nat :=
  (data.foldl crcByte 0xFFFFFFFF) ^^^ 0xFFFFFFFF

/-- The 8-byte PNG signature `b'\x89PNG\r\n\x1a\n'`. -/
def pngSignature : List Nat := [0x89, 0x50, 0x4E, 0x47, 0x0D, 0x0A, 0x1A, 0x0A]

/-- The chunk type bytes `b'IHDR'`. -/
def tIHDR : List Nat := [0x49, 0x48, 0x44, 0x52]

/-- The chunk type bytes `b'IDAT'`. -/
def tIDAT : List Nat := [0x49, 0x44, 0x41, 0x54]

/-- The chunk type bytes `b'IEND'`. -/
def tIEND : List Nat := [0x49, 0x45, 0x4E, 0x44]

/-- The 3 bytes of one pixel of LinkedIn blue `#0077b5`. -/
def pixelBytes : List Nat := [0x00, 0x77, 0xb5]

/-- One scanline of `create_minimal_png`: the filter byte `0x00`, then one
`pixelBytes` appended per column, exactly as the inner `for x` loop. -/
def pngRow (width : Nat) : List Nat :=
  (List.range width).foldl (fun r _ => r ++ pixelBytes) [0x00]

/-- The uncompressed image data of `create_minimal_png`: starting from the
empty byte string, one `pngRow` appended per row, exactly as the outer
`for y` loop. -/
def rawData (width height : Nat) : List Nat :=
  (List.range height).foldl (fun acc _ => acc ++ pngRow width) []

/-- Embedding of `create_minimal_png(width, height)` from
`src/create-icons.py`, parameterized by the `zlib.compress` function.
Each `pack32` mirrors one `struct.pack('>I', ...)`; the `'>IIBBBBB'` pack
of the IHDR data is the two 4-byte packs followed by the five literal
bytes `8, 2, 0, 0, 0`. -/
def create_minimal_png (compress : List Nat → List Nat)
    (width height : Nat) : Option (List Nat) :=
  (pack32 width).bind fun wB =>
  (pack32 height).bind fun hB =>
  let ihdr_data := wB ++ hB ++ [8, 2, 0, 0, 0]
  let ihdr_crc := crc32 (tIHDR ++ ihdr_data)
  (pack32 13).bind fun ihdrLenB =>
  (pack32 ihdr_crc).bind fun ihdrCrcB =>
  let ihdr_chunk := ihdrLenB ++ tIHDR ++ ihdr_data ++ ihdrCrcB
  let raw_data := rawData width height
  let compressed := compress raw_data
  let idat_crc := crc32 (tIDAT ++ compressed)
  (pack32 compressed.length).bind fun idatLenB =>
  (pack32 idat_crc).bind fun idatCrcB =>
  let idat_chunk := idatLenB ++ tIDAT ++ compressed ++ idatCrcB
  let iend_crc := crc32 tIEND
  (pack32 0).bind fun iendLenB =>
  (pack32 iend_crc).bind fun iendCrcB =>
  let iend_chunk := iendLenB ++ tIEND ++ iendCrcB
  some (pngSignature ++ ihdr_chunk ++ idat_chunk ++ iend_chunk)

/-- Specification-side encoding of one PNG chunk: the 4-byte big-endian
length of the payload, the 4 type bytes, the payload, and the 4-byte
big-endian CRC32 computed over the type bytes followed by the payload. -/
def encodeChunk (ctype payload : List Nat) : List Nat :=
  be32 payload.length ++ ctype ++ payload ++ be32 (crc32 (ctype ++ payload))

/-- The observable effects of a script run: a file write or a printed
line. -/
inductive Event where
  | write (path : String) (data : List Nat)
  | print (line : String)
deriving DecidableEq

/-- The hardcoded size list `[16, 32, 48, 128]`, identical in both
scripts. -/
def sizes : List Nat := [16, 32, 48, 128]

/-- The output path `f'assets/icons/icon{size}.png'`. -/
def iconPath (size : Nat) : String :=
  "assets/icons/icon" ++ Nat.repr size ++ ".png"

/-- The per-size loop of `src/create-icons.py`: for each size, build the
PNG, write it, print the status line; a `struct.error` aborts the run. -/
def script1Loop (compress : List Nat → List Nat) :
    List Nat → Option (List Event)
  | [] => some []
  | s :: rest =>
    (create_minimal_png compress s s).bind fun png =>
    (script1Loop compress rest).bind fun evs =>
    some (Event.write (iconPath s) png ::
          Event.print ("Created " ++ iconPath s) :: evs)

/-- The whole run of `src/create-icons.py`: the loop over `sizes`, then
the final summary print. -/
def script1Main (compress : List Nat → List Nat) : Option (List Event) :=
  (script1Loop compress sizes).bind fun evs =>
  some (evs ++ [Event.print "All icon files created successfully!"])

/-- Value of one character of the standard base64 alphabet, `none` for a
character outside it (which `base64.b64decode` discards). -/
def b64CharVal (c : Char) : Option Nat :=
  let n := c.toNat
  if 65 ≤ n ∧ n ≤ 90 then some (n - 65)
  else if 97 ≤ n ∧ n ≤ 122 then some (n - 97 + 26)
  else if 48 ≤ n ∧ n ≤ 57 then some (n - 48 + 52)
  else if n = 43 then some 62
  else if n = 47 then some 63
  else none

/-- Turn a stream of 6-bit values into bytes: accumulate bits, emit a byte
whenever at least 8 are available, drop a final group of fewer than 8
bits (the padding bits). -/
def sextetsToBytes : List Nat → Nat → Nat → List Nat
  | [], _, _ => []
  | v :: vs, acc, nbits =>
    let acc2 := acc * 64 + v % 64
    let nb := nbits + 6
    if 8 ≤ nb then
      acc2 / 2 ^ (nb - 8) % 256 :: sextetsToBytes vs (acc2 % 2 ^ (nb - 8)) (nb - 8)
    else
      sextetsToBytes vs acc2 nb

/-- `base64.b64decode` on a clean standard-alphabet input: map characters
to 6-bit values and reassemble bytes. -/
def b64decode (s : String) : List Nat :=
  sextetsToBytes (s.data.filterMap b64CharVal) 0 0

/-- The hardcoded base64 string of `src/create_icons.py`, a 1x1 blue
pixel PNG. -/
def blue_pixel : String :=
  "iVBORw0KGgoAAAANSUhEUgAAAAEAAAABCAYAAAAfFcSJAAAADUlEQVR42mNkYPhfDwAChwGA60e6kgAAAABJRU5ErkJggg=="

/-- The whole run of `src/create_icons.py`: per size, write the decoded
blue pixel bytes and print the status line; then the two final prints. -/
def script2Main : List Event :=
  (sizes.map fun s =>
    [Event.write (iconPath s) (b64decode blue_pixel),
     Event.print ("Created icon" ++ Nat.repr s ++ ".png")]).flatten ++
  [Event.print "Icon files created. These are placeholder 1x1 blue pixels.",
   Event.print "For production, replace with proper icon files."]

/-- The paths of the file writes of an event list, in order. -/
def writesOf (evs : List Event) : List String :=
  evs.filterMap fun e =>
    match e with
    | Event.write p _ => some p
    | Event.print _ => none

/-- The file writes of an event list as (path, contents) pairs, in
order. -/
def writePairs (evs : List Event) : List (String × List Nat) :=
  evs.filterMap fun e =>
    match e with
    | Event.write p d => some (p, d)
    | Event.print _ => none

/-- The printed lines of an event list, in order. -/
def printsOf (evs : List Event) : List String :=
  evs.filterMap fun e =>
    match e with
    | Event.write _ _ => none
    | Event.print l => some l

/-! ### Basic facts about the byte-level helpers -/

lemma xor_lt_two_pow_32 {x y : Nat} (hx : x < 2 ^ 32) (hy : y < 2 ^ 32) :
    x ^^^ y < 2 ^ 32 :=
  Nat.bitwise_lt_two_pow hx hy

lemma crcStep_lt {c : Nat} (hc : c < 2 ^ 32) : crcStep c < 2 ^ 32 := by
  unfold crcStep
  split
  · exact xor_lt_two_pow_32 (by norm_num) (lt_of_le_of_lt (Nat.div_le_self c 2) hc)
  · exact lt_of_le_of_lt (Nat.div_le_self c 2) hc

lemma crcStep_iter_lt (n : Nat) {c : Nat} (hc : c < 2 ^ 32) :
    crcStep^[n] c < 2 ^ 32 := by
  induction n generalizing c with
  | zero => simpa using hc
  | succ n ih =>
    rw [Function.iterate_succ_apply]
    exact ih (crcStep_lt hc)

lemma crcByte_lt {c : Nat} (b : Nat) (hc : c < 2 ^ 32) : crcByte c b < 2 ^ 32 := by
  unfold crcByte
  exact crcStep_iter_lt 8
    (xor_lt_two_pow_32 hc (lt_of_lt_of_le (Nat.mod_lt b (by norm_num)) (by norm_num)))

lemma foldl_crcByte_lt (data : List Nat) : ∀ {c : Nat}, c < 2 ^ 32 →
    data.foldl crcByte c < 2 ^ 32 := by
  induction data with
  | nil => intro c hc; simpa using hc
  | cons b rest ih => intro c hc; exact ih (crcByte_lt b hc)

/-- The CRC32 of any byte list fits a 4-byte field, so `struct.pack` never
fails on it. -/
lemma crc32_lt (data : List Nat) : crc32 data < 2 ^ 32 :=
  xor_lt_two_pow_32 (foldl_crcByte_lt data (by norm_num)) (by norm_num)

lemma be32_length (n : Nat) : (be32 n).length = 4 := rfl

/-- The 4 big-endian bytes decode back to the packed value. -/
lemma beDecode_be32 {n : Nat} (hn : n < 2 ^ 32) : beDecode (be32 n) = n := by
  simp only [be32, beDecode, List.foldl_cons, List.foldl_nil]
  norm_num at hn ⊢
  omega

lemma pack32_eq_some {n : Nat} (hn : n < 2 ^ 32) : pack32 n = some (be32 n) := by
  rw [pack32, if_pos hn]

lemma pack32_eq_none {n : Nat} (hn : ¬ n < 2 ^ 32) : pack32 n = none := by
  rw [pack32, if_neg hn]

lemma pack32_13 : pack32 13 = some (be32 13) := pack32_eq_some (by norm_num)

lemma pack32_0 : pack32 0 = some (be32 0) := pack32_eq_some (by norm_num)

/-- Packing a CRC32 value never fails. -/
lemma pack32_crc32 (d : List Nat) : pack32 (crc32 d) = some (be32 (crc32 d)) :=
  pack32_eq_some (crc32_lt d)

/-! ### The shape of the raw scanline data -/

lemma foldl_append_const (x : List Nat) :
    ∀ (n : Nat) (init : List Nat),
      (List.range n).foldl (fun acc _ => acc ++ x) init =
        init ++ (List.replicate n x).flatten := by
  intro n
  induction n with
  | zero => intro init; simp
  | succ n ih =>
    intro init
    rw [List.range_succ, List.foldl_append, ih, List.replicate_succ',
      List.flatten_append]
    simp

/-- The inner loop builds the filter byte followed by `width` copies of
the pixel bytes. -/
lemma pngRow_eq (width : Nat) :
    pngRow width = 0x00 :: (List.replicate width pixelBytes).flatten := by
  rw [pngRow, foldl_append_const]
  rfl

/-- The outer loop builds `height` copies of the scanline. -/
lemma rawData_eq (width height : Nat) :
    rawData width height = (List.replicate height (pngRow width)).flatten := by
  rw [rawData, foldl_append_const]
  rfl

lemma length_flatten_replicate (n : Nat) (x : List Nat) :
    (List.replicate n x).flatten.length = n * x.length := by
  induction n with
  | zero => simp
  | succ n ih => simp [List.replicate_succ, ih, Nat.succ_mul, Nat.add_comm]

lemma pngRow_length (width : Nat) : (pngRow width).length = 1 + 3 * width := by
  rw [pngRow_eq]
  simp [length_flatten_replicate, pixelBytes]
  omega

lemma rawData_length (width height : Nat) :
    (rawData width height).length = height * (1 + 3 * width) := by
  rw [rawData_eq, length_flatten_replicate, pngRow_length]

/-! ### The byte layout of a produced PNG -/

/-- When every 4-byte field fits, `create_minimal_png` returns the
signature followed by the three chunks, each in the
length-type-payload-CRC layout of `encodeChunk`. -/
lemma create_minimal_png_eq (compress : List Nat → List Nat) {w h : Nat}
    (hw : w < 2 ^ 32) (hh : h < 2 ^ 32)
    (hc : (compress (rawData w h)).length < 2 ^ 32) :
    create_minimal_png compress w h =
      some (pngSignature ++
        encodeChunk tIHDR (be32 w ++ be32 h ++ [8, 2, 0, 0, 0]) ++
        encodeChunk tIDAT (compress (rawData w h)) ++
        encodeChunk tIEND []) := by
  simp only [create_minimal_png, pack32_eq_some hw, pack32_eq_some hh,
    pack32_13, pack32_crc32, pack32_eq_some hc, pack32_0, Option.some_bind]
  rfl

/-- Inversion: any successful run of `create_minimal_png` had all three
4-byte fields in range, and its output has the chunk layout above. -/
lemma create_minimal_png_some (compress : List Nat → List Nat) {w h : Nat}
    {png : List Nat} (hp : create_minimal_png compress w h = some png) :
    w < 2 ^ 32 ∧ h < 2 ^ 32 ∧ (compress (rawData w h)).length < 2 ^ 32 ∧
      png = pngSignature ++
        encodeChunk tIHDR (be32 w ++ be32 h ++ [8, 2, 0, 0, 0]) ++
        encodeChunk tIDAT (compress (rawData w h)) ++
        encodeChunk tIEND [] := by
  by_cases hw : w < 2 ^ 32
  · by_cases hh : h < 2 ^ 32
    · by_cases hc : (compress (rawData w h)).length < 2 ^ 32
      · refine ⟨hw, hh, hc, ?_⟩
        rw [create_minimal_png_eq compress hw hh hc] at hp
        exact (Option.some.inj hp).symm
      · exfalso
        simp only [create_minimal_png, pack32_eq_some hw, pack32_eq_some hh,
          pack32_13, pack32_crc32, pack32_eq_none hc, Option.some_bind,
          Option.none_bind] at hp
        exact Option.noConfusion hp
    · exfalso
      simp only [create_minimal_png, pack32_eq_some hw, pack32_eq_none hh,
        Option.some_bind, Option.none_bind] at hp
      exact Option.noConfusion hp
  · exfalso
    simp only [create_minimal_png, pack32_eq_none hw, Option.none_bind] at hp
    exact Option.noConfusion hp

/-- Shorthand for the PNG bytes the first script produces for one size. -/
def script1Png (compress : List Nat → List Nat) (s : Nat) : List Nat :=
  pngSignature ++
    encodeChunk tIHDR (be32 s ++ be32 s ++ [8, 2, 0, 0, 0]) ++
    encodeChunk tIDAT (compress (rawData s s)) ++
    encodeChunk tIEND []

/-- The full event trace of the first script when every compressed payload
fits its 4-byte length field. -/
lemma script1Main_eq (compress : List Nat → List Nat)
    (hc : ∀ s ∈ sizes, (compress (rawData s s)).length < 2 ^ 32) :
    script1Main compress = some
      [Event.write (iconPath 16) (script1Png compress 16),
       Event.print ("Created " ++ iconPath 16),
       Event.write (iconPath 32) (script1Png compress 32),
       Event.print ("Created " ++ iconPath 32),
       Event.write (iconPath 48) (script1Png compress 48),
       Event.print ("Created " ++ iconPath 48),
       Event.write (iconPath 128) (script1Png compress 128),
       Event.print ("Created " ++ iconPath 128),
       Event.print "All icon files created successfully!"] := by
  have e16 := create_minimal_png_eq compress (by norm_num) (by norm_num)
    (hc 16 (by simp [sizes]))
  have e32 := create_minimal_png_eq compress (by norm_num) (by norm_num)
    (hc 32 (by simp [sizes]))
  have e48 := create_minimal_png_eq compress (by norm_num) (by norm_num)
    (hc 48 (by simp [sizes]))
  have e128 := create_minimal_png_eq compress (by norm_num) (by norm_num)
    (hc 128 (by simp [sizes]))
  simp only [script1Main, sizes, script1Loop, e16, e32, e48, e128,
    Option.some_bind, script1Png]
  rfl

/-! ### The claims -/

/-- C1: for every size in the set 16, 32, 48, 128 (width = height = size)
and any compression function whose output fits the 4-byte length field,
`create_minimal_png` returns a structurally valid PNG: signature followed
by IHDR, IDAT and IEND chunks, where each chunk (see `encodeChunk`)
carries as length prefix the big-endian byte length of its payload (13
for IHDR, the compressed length for IDAT, 0 for IEND) and as trailing
field the big-endian CRC32 recomputed over its type bytes followed by its
payload bytes. -/
theorem C1_chunk_lengths_and_crcs (s : Nat) (hs : s ∈ sizes)
    (compress : List Nat → List Nat)
    (hc : (compress (rawData s s)).length < 2 ^ 32) :
    create_minimal_png compress s s = some (pngSignature ++
        encodeChunk tIHDR (be32 s ++ be32 s ++ [8, 2, 0, 0, 0]) ++
        encodeChunk tIDAT (compress (rawData s s)) ++
        encodeChunk tIEND []) ∧
      (be32 s ++ be32 s ++ [8, 2, 0, 0, 0]).length = 13 ∧
      ([] : List Nat).length = 0 := by
  have hlt : s < 2 ^ 32 := by
    simp only [sizes, List.mem_cons, List.not_mem_nil, or_false] at hs
    rcases hs with rfl | rfl | rfl | rfl <;> norm_num
  exact ⟨create_minimal_png_eq compress hlt hlt hc, by simp [be32], rfl⟩

theorem C1_witness :
    (16 ∈ sizes ∧ (id (rawData 16 16)).length < 2 ^ 32) ∧
    (create_minimal_png id 16 16 = some (pngSignature ++
        encodeChunk tIHDR (be32 16 ++ be32 16 ++ [8, 2, 0, 0, 0]) ++
        encodeChunk tIDAT (id (rawData 16 16)) ++
        encodeChunk tIEND []) ∧
      (be32 16 ++ be32 16 ++ [8, 2, 0, 0, 0]).length = 13 ∧
      ([] : List Nat).length = 0) :=
  ⟨⟨by decide, by norm_num [id_eq, rawData_length]⟩,
    C1_chunk_lengths_and_crcs 16 (by decide) id
      (by norm_num [id_eq, rawData_length])⟩

/-- C2: whenever `create_minimal_png` produces output, that output starts
with the signature and an IHDR chunk whose 13-byte payload is the 4-byte
big-endian width, the 4-byte big-endian height, bit depth 8, color type
2 and three zero bytes, followed by the big-endian CRC32 of the type
bytes `IHDR` and the payload; the packed width and height fields decode
back to the requested values. -/
theorem C2_ihdr_encoding (w h : Nat) (compress : List Nat → List Nat)
    (png : List Nat) (hp : create_minimal_png compress w h = some png) :
    ∃ rest, png = pngSignature ++
        encodeChunk tIHDR (be32 w ++ be32 h ++ [8, 2, 0, 0, 0]) ++ rest ∧
      (be32 w ++ be32 h ++ [8, 2, 0, 0, 0]).length = 13 ∧
      encodeChunk tIHDR (be32 w ++ be32 h ++ [8, 2, 0, 0, 0]) =
        be32 13 ++ tIHDR ++ (be32 w ++ be32 h ++ [8, 2, 0, 0, 0]) ++
          be32 (crc32 (tIHDR ++ (be32 w ++ be32 h ++ [8, 2, 0, 0, 0]))) ∧
      beDecode (be32 w) = w ∧ beDecode (be32 h) = h := by
  obtain ⟨hw, hh, hc, hpng⟩ := create_minimal_png_some compress hp
  refine ⟨encodeChunk tIDAT (compress (rawData w h)) ++ encodeChunk tIEND [],
    ?_, by simp [be32], rfl, beDecode_be32 hw, beDecode_be32 hh⟩
  rw [hpng]
  simp [List.append_assoc]

theorem C2_witness :
    ∃ rest, (pngSignature ++
        encodeChunk tIHDR (be32 1 ++ be32 1 ++ [8, 2, 0, 0, 0]) ++
        encodeChunk tIDAT (id (rawData 1 1)) ++
        encodeChunk tIEND []) = pngSignature ++
        encodeChunk tIHDR (be32 1 ++ be32 1 ++ [8, 2, 0, 0, 0]) ++ rest ∧
      (be32 1 ++ be32 1 ++ [8, 2, 0, 0, 0]).length = 13 ∧
      encodeChunk tIHDR (be32 1 ++ be32 1 ++ [8, 2, 0, 0, 0]) =
        be32 13 ++ tIHDR ++ (be32 1 ++ be32 1 ++ [8, 2, 0, 0, 0]) ++
          be32 (crc32 (tIHDR ++ (be32 1 ++ be32 1 ++ [8, 2, 0, 0, 0]))) ∧
      beDecode (be32 1) = 1 ∧ beDecode (be32 1) = 1 :=
  C2_ihdr_encoding 1 1 id _
    (create_minimal_png_eq id (by norm_num) (by norm_num) (by decide))

/-- C4: the uncompressed scanline data is `height` rows, each one filter
byte 0x00 followed by `width` copies of the pixel bytes 0x00 0x77 0xb5,
so it has length `height * (1 + 3 * width)`; the IDAT chunk payload of
the produced PNG is exactly the compression of this data. -/
theorem C4_scanline_data (w h : Nat) (compress : List Nat → List Nat)
    (hw : w < 2 ^ 32) (hh : h < 2 ^ 32)
    (hc : (compress (rawData w h)).length < 2 ^ 32) :
    rawData w h =
      (List.replicate h (0x00 :: (List.replicate w [0x00, 0x77, 0xb5]).flatten)).flatten ∧
    (rawData w h).length = h * (1 + 3 * w) ∧
    create_minimal_png compress w h = some (pngSignature ++
      encodeChunk tIHDR (be32 w ++ be32 h ++ [8, 2, 0, 0, 0]) ++
      encodeChunk tIDAT (compress (rawData w h)) ++
      encodeChunk tIEND []) := by
  refine ⟨?_, rawData_length w h, create_minimal_png_eq compress hw hh hc⟩
  rw [rawData_eq, pngRow_eq]
  rfl

theorem C4_witness :
    (2 < 2 ^ 32 ∧ 3 < 2 ^ 32 ∧ (id (rawData 2 3)).length < 2 ^ 32) ∧
    (rawData 2 3 =
      (List.replicate 3 (0x00 :: (List.replicate 2 [0x00, 0x77, 0xb5]).flatten)).flatten ∧
    (rawData 2 3).length = 3 * (1 + 3 * 2) ∧
    create_minimal_png id 2 3 = some (pngSignature ++
      encodeChunk tIHDR (be32 2 ++ be32 3 ++ [8, 2, 0, 0, 0]) ++
      encodeChunk tIDAT (id (rawData 2 3)) ++
      encodeChunk tIEND [])) :=
  ⟨⟨by norm_num, by norm_num, by decide⟩,
    C4_scanline_data 2 3 id (by norm_num) (by norm_num) (by decide)⟩

/-- C5: for every size in the set 16, 32, 48, 128, the produced PNG
begins with the 8 signature bytes 0x89 P N G 0x0d 0x0a 0x1a 0x0a. -/
theorem C5_signature_prefix (s : Nat) (hs : s ∈ sizes)
    (compress : List Nat → List Nat)
    (hc : (compress (rawData s s)).length < 2 ^ 32) :
    ∃ png, create_minimal_png compress s s = some png ∧
      png.take 8 = [0x89, 0x50, 0x4E, 0x47, 0x0D, 0x0A, 0x1A, 0x0A] := by
  have hlt : s < 2 ^ 32 := by
    simp only [sizes, List.mem_cons, List.not_mem_nil, or_false] at hs
    rcases hs with rfl | rfl | rfl | rfl <;> norm_num
  exact ⟨_, create_minimal_png_eq compress hlt hlt hc, rfl⟩

theorem C5_witness :
    (32 ∈ sizes ∧ (id (rawData 32 32)).length < 2 ^ 32) ∧
    (∃ png, create_minimal_png id 32 32 = some png ∧
      png.take 8 = [0x89, 0x50, 0x4E, 0x47, 0x0D, 0x0A, 0x1A, 0x0A]) :=
  ⟨⟨by decide, by norm_num [id_eq, rawData_length]⟩,
    C5_signature_prefix 32 (by decide) id
      (by norm_num [id_eq, rawData_length])⟩

/-- C6: the produced bytes are exactly the signature, the IHDR chunk, a
single IDAT chunk and an IEND chunk in this order with nothing before or
after, and the IEND chunk is the length field 0, the type bytes, no
payload, and the CRC32 computed over the type bytes `IEND` alone. -/
theorem C6_overall_layout (w h : Nat) (compress : List Nat → List Nat)
    (png : List Nat) (hp : create_minimal_png compress w h = some png) :
    png = pngSignature ++
      encodeChunk tIHDR (be32 w ++ be32 h ++ [8, 2, 0, 0, 0]) ++
      encodeChunk tIDAT (compress (rawData w h)) ++
      (be32 0 ++ tIEND ++ be32 (crc32 tIEND)) ∧
    encodeChunk tIEND [] = be32 0 ++ tIEND ++ be32 (crc32 tIEND) := by
  obtain ⟨hw, hh, hc, hpng⟩ := create_minimal_png_some compress hp
  exact ⟨by rw [hpng]; rfl, rfl⟩

lemma flatten_replicate_singleton (n : Nat) (a : Nat) :
    (List.replicate n [a]).flatten = List.replicate n a := by
  induction n with
  | zero => rfl
  | succ n ih => simp [List.replicate_succ, ih]

theorem C6_witness :
    (pngSignature ++
      encodeChunk tIHDR (be32 2 ++ be32 2 ++ [8, 2, 0, 0, 0]) ++
      encodeChunk tIDAT (id (rawData 2 2)) ++
      encodeChunk tIEND []) = pngSignature ++
      encodeChunk tIHDR (be32 2 ++ be32 2 ++ [8, 2, 0, 0, 0]) ++
      encodeChunk tIDAT (id (rawData 2 2)) ++
      (be32 0 ++ tIEND ++ be32 (crc32 tIEND)) ∧
    encodeChunk tIEND [] = be32 0 ++ tIEND ++ be32 (crc32 tIEND) :=
  C6_overall_layout 2 2 id _
    (create_minimal_png_eq id (by norm_num) (by norm_num) (by decide))

/-- C3: the second script writes, for every size in 16, 32, 48, 128 and
in that order, exactly the base64 decoding of the fixed hardcoded string
`blue_pixel`, independent of the size value; in particular all four files
have identical contents, and the decoded bytes start with the PNG
signature. -/
theorem C3_fixed_bytes_for_all_sizes :
    writePairs script2Main =
      sizes.map (fun s => (iconPath s, b64decode blue_pixel)) ∧
    (writePairs script2Main).map Prod.snd =
      List.replicate 4 (b64decode blue_pixel) ∧
    (b64decode blue_pixel).take 8 = pngSignature :=
  ⟨rfl, rfl, by decide⟩

/-- C7: both scripts are deterministic: two evaluations of the PNG
builder at the same arguments are equal, every evaluation of the base64
decoding of `blue_pixel` is equal, and both full script runs equal
themselves; the embedding is purely functional with no hidden state. -/
theorem C7_deterministic (compress : List Nat → List Nat) (w h : Nat) :
    create_minimal_png compress w h = create_minimal_png compress w h ∧
    b64decode blue_pixel = b64decode blue_pixel ∧
    script1Main compress = script1Main compress ∧
    script2Main = script2Main :=
  ⟨rfl, rfl, rfl, rfl⟩

/-- C8: each script writes exactly one file per size in 16, 32, 48, 128,
in that order, to assets/icons/icon<SIZE>.png with the decimal size in
the name, and no other files. -/
theorem C8_files_written (compress : List Nat → List Nat)
    (hc : ∀ s ∈ sizes, (compress (rawData s s)).length < 2 ^ 32) :
    ∃ evs, script1Main compress = some evs ∧
      writesOf evs = ["assets/icons/icon16.png", "assets/icons/icon32.png",
        "assets/icons/icon48.png", "assets/icons/icon128.png"] ∧
      writesOf script2Main = ["assets/icons/icon16.png",
        "assets/icons/icon32.png", "assets/icons/icon48.png",
        "assets/icons/icon128.png"] ∧
      writesOf evs = sizes.map iconPath :=
  ⟨_, script1Main_eq compress hc, rfl, rfl, rfl⟩

theorem C8_witness :
    ∃ evs, script1Main id = some evs ∧
      writesOf evs = ["assets/icons/icon16.png", "assets/icons/icon32.png",
        "assets/icons/icon48.png", "assets/icons/icon128.png"] ∧
      writesOf script2Main = ["assets/icons/icon16.png",
        "assets/icons/icon32.png", "assets/icons/icon48.png",
        "assets/icons/icon128.png"] ∧
      writesOf evs = sizes.map iconPath :=
  C8_files_written id (by
    intro s hs
    simp only [sizes, List.mem_cons, List.not_mem_nil, or_false] at hs
    rcases hs with rfl | rfl | rfl | rfl <;> norm_num [id_eq, rawData_length])

/-- C9 fails as stated: the second script prints six lines, four status
lines and two final lines, not the five lines (one per size plus exactly
one summary line) the claim requires for each script. -/
theorem C9_counterexample :
    (printsOf script2Main).length ≠ sizes.length + 1 := by decide

/-- C9 amended: each script prints one status line per file written
(four lines, one per size, in order); the first script then prints
exactly one final summary line, while the second script prints exactly
two final informational lines; nothing else is printed. -/
theorem C9_amended_console_output (compress : List Nat → List Nat)
    (hc : ∀ s ∈ sizes, (compress (rawData s s)).length < 2 ^ 32) :
    ∃ evs, script1Main compress = some evs ∧
      printsOf evs = (sizes.map fun s => "Created " ++ iconPath s) ++
        ["All icon files created successfully!"] ∧
      printsOf script2Main =
        (sizes.map fun s => "Created icon" ++ Nat.repr s ++ ".png") ++
        ["Icon files created. These are placeholder 1x1 blue pixels.",
         "For production, replace with proper icon files."] ∧
      sizes.length = 4 :=
  ⟨_, script1Main_eq compress hc, rfl, rfl, rfl⟩

theorem C9_witness :
    ∃ evs, script1Main id = some evs ∧
      printsOf evs = (sizes.map fun s => "Created " ++ iconPath s) ++
        ["All icon files created successfully!"] ∧
      printsOf script2Main =
        (sizes.map fun s => "Created icon" ++ Nat.repr s ++ ".png") ++
        ["Icon files created. These are placeholder 1x1 blue pixels.",
         "For production, replace with proper icon files."] ∧
      sizes.length = 4 :=
  C9_amended_console_output id (by
    intro s hs
    simp only [sizes, List.mem_cons, List.not_mem_nil, or_false] at hs
    rcases hs with rfl | rfl | rfl | rfl <;> norm_num [id_eq, rawData_length])

/-- C10 fails as stated: at width 0 and height 1 the scanline loop
produces the single filter byte, not the empty byte string, and at width
2^32 the function hits a struct.error (modelled as `none`) instead of
returning a byte sequence. -/
theorem C10_counterexample :
    rawData 0 1 ≠ [] ∧ create_minimal_png id (2 ^ 32) 1 = none :=
  ⟨by decide, by decide⟩

/-- C10 amended: `create_minimal_png` returns a byte sequence without
raising for every width and height below 2^32 whose compressed scanline
data also fits the 4-byte IDAT length field; when height = 0 the
scanline loop produces the empty byte string (and the IDAT payload is the
compression of the empty byte string); when width = 0 the scanline data
is one filter byte per row; all length and CRC32 fields follow the same
rules as in the nondegenerate cases. -/
theorem C10_amended_totality (compress : List Nat → List Nat) (w h : Nat)
    (hw : w < 2 ^ 32) (hh : h < 2 ^ 32)
    (hc : (compress (rawData w h)).length < 2 ^ 32) :
    (∃ png, create_minimal_png compress w h = some png ∧
      png = pngSignature ++
        encodeChunk tIHDR (be32 w ++ be32 h ++ [8, 2, 0, 0, 0]) ++
        encodeChunk tIDAT (compress (rawData w h)) ++
        encodeChunk tIEND []) ∧
    (h = 0 → rawData w h = []) ∧
    (w = 0 → rawData w h = List.replicate h 0x00) := by
  refine ⟨⟨_, create_minimal_png_eq compress hw hh hc, rfl⟩, ?_, ?_⟩
  · rintro rfl
    rfl
  · rintro rfl
    rw [rawData_eq, pngRow_eq]
    simp [flatten_replicate_singleton h 0x00]

theorem C10_witness :
    (0 < 2 ^ 32 ∧ (id (rawData 0 0)).length < 2 ^ 32) ∧
    ((∃ png, create_minimal_png id 0 0 = some png ∧
      png = pngSignature ++
        encodeChunk tIHDR (be32 0 ++ be32 0 ++ [8, 2, 0, 0, 0]) ++
        encodeChunk tIDAT (id (rawData 0 0)) ++
        encodeChunk tIEND []) ∧
    ((0 : Nat) = 0 → rawData 0 0 = []) ∧
    ((0 : Nat) = 0 → rawData 0 0 = List.replicate 0 0x00)) :=
  ⟨⟨by norm_num, by decide⟩,
    C10_amended_totality id 0 0 (by norm_num) (by norm_num) (by decide)⟩

end GtmIcons
